import Mathlib

/-!
Verification of the neo array-container core (`neo/core/neoarray.py`,
`analogsignal.py`, `event.py`, `epoch.py`, `spiketrain.py`) against its
natural-language specification.

The Python code is shallowly embedded: numeric arrays become `List ℚ`
(magnitudes), physical units become an explicit dimensionality record, and
fallible operations return `Except PErr`.  The unit-quantity substrate
(`python-quantities`) is an external collaborator; its rescaling behaviour is
modelled by `rescaleQuantity`/`rescaleScalar` (conversion factor between
compatible dimensionalities, error otherwise).
-/

/-- One base unit as the quantities package sees it: its symbol, the symbol of
the simplified (SI base) unit it reduces to, the conversion factor to that base
unit, and whether it is a `pq.UnitTime`. -/
structure BaseDim where
  sym : String
  baseSym : String
  factor : ℚ
  isTime : Bool
  deriving DecidableEq, Repr

/-- A dimensionality: the `dimensionality.items()` dictionary of a quantity,
a list of (unit, power) pairs. -/
structure Dimensionality where
  entries : List (BaseDim × ℤ)
  deriving DecidableEq, Repr

def uSecond : BaseDim := ⟨"s", "s", 1, true⟩

def uMillisecond : BaseDim := ⟨"ms", "s", 1/1000, true⟩

def uMillivolt : BaseDim := ⟨"mV", "V", 1/1000, false⟩

def dimS : Dimensionality := ⟨[(uSecond, 1)]⟩

def dimMs : Dimensionality := ⟨[(uMillisecond, 1)]⟩

def dimMv : Dimensionality := ⟨[(uMillivolt, 1)]⟩

/-- The simplified dimensionality: base-unit symbols with powers.  Two
dimensionalities are convertible exactly when these agree. -/
def Dimensionality.simplifiedKey (d : Dimensionality) : List (String × ℤ) :=
  d.entries.map (fun e => (e.1.baseSym, e.2))

/-- Whether the unit system can convert between two dimensionalities. -/
def compatibleDim (d1 d2 : Dimensionality) : Bool :=
  d1.simplifiedKey = d2.simplifiedKey

/-- Overall conversion factor of a dimensionality to SI base units. -/
def dimFactor (d : Dimensionality) : ℚ :=
  d.entries.foldl (fun acc e => acc * e.1.factor ^ e.2) 1

/-- The check at `neoarray.py` lines 203-204: the dimensionality dictionary has
exactly one entry, with power 1, whose unit is a `pq.UnitTime`. -/
def dimIsTimePow1 (d : Dimensionality) : Bool :=
  match d.entries with
  | [(b, p)] => p = 1 && b.isTime
  | _ => false

/-- The Python exceptions the embedded code can raise. -/
inductive PErr where
  | valueErrorNoUnits          -- "you must specify units"
  | valueErrorViewRescale      -- "cannot rescale and return view"
  | valueErrorViewDtype        -- "cannot change dtype and return view"
  | valueErrorUnconvertible    -- quantities: unable to convert between units
  | valueErrorInconsistent     -- "Inconsistent values of %s"
  | valueErrorNoRate           -- "You must provide either the sampling rate or sampling period"
  | valueErrorRateMismatch     -- "The sampling_rate has to be 1/sampling_period"
  | valueErrorTStartNone       -- "t_start cannot be None"
  | firstSpikeBeforeStart      -- "The first spike (%s) is before t_start (%s)"
  | lastSpikeAfterStop         -- "The last spike (%s) is after t_stop (%s)"
  | typeError                  -- ill-formed call, e.g. hasattr with one argument
  | attributeError             -- attribute access on an object lacking it
  | notImplementedError        -- NeoArray abstract members
  deriving DecidableEq, Repr

/-- The two range errors of `_check_time_in_range`. -/
def PErr.isRangeError : PErr → Bool
  | .firstSpikeBeforeStart => true
  | .lastSpikeAfterStop => true
  | _ => false

/-- A Python array-like argument (`list`, `np.ndarray` or `pq.Quantity`):
its magnitudes, its units when it is a Quantity, and its dtype when it is an
ndarray or Quantity (a plain list has neither). -/
structure PyData where
  values : List ℚ
  units : Option Dimensionality
  dtype : Option String
  deriving DecidableEq, Repr

/-- A Python scalar argument: magnitude plus optional units. -/
structure PyScalar where
  mag : ℚ
  units : Option Dimensionality
  deriving DecidableEq, Repr

/-- `Quantity.rescale` of the external quantities collaborator: identity on an
identical dimensionality, multiplication by the conversion factor between
compatible dimensionalities, `ValueError` otherwise. -/
def rescaleQuantity (vals : List ℚ) (dFrom dTo : Dimensionality) :
    Except PErr (List ℚ) :=
  if dFrom = dTo then .ok vals
  else if compatibleDim dFrom dTo then
    .ok (vals.map (· * (dimFactor dFrom / dimFactor dTo)))
  else .error PErr.valueErrorUnconvertible

/-- Scalar version of `rescaleQuantity`, used for unit-aware comparison of a
scalar quantity against bounds in the target units. -/
def rescaleScalar (mag : ℚ) (dFrom dTo : Dimensionality) : Except PErr ℚ :=
  if dFrom = dTo then .ok mag
  else if compatibleDim dFrom dTo then
    .ok (mag * (dimFactor dFrom / dimFactor dTo))
  else .error PErr.valueErrorUnconvertible

/-- The object produced by `NeoArray.__new__`: the primary magnitudes, the
resolved dimensionality and the resolved dtype. -/
structure NeoObj where
  values : List ℚ
  dim : Dimensionality
  dtype : String
  deriving DecidableEq, Repr

/-- `NeoArray.__new__` (`neoarray.py` lines 155-220).  Resolves units from the
keyword or from `data` (`ValueError` when neither has them), rescales `data`
when its units differ from the requested ones (refusing without `copy`),
resolves the dtype, and then performs the unit-correctness check of lines
203-206: the source builds `ValueError(...)` there but never raises it, so the
flag is computed and discarded and construction continues. -/
def NeoArray.new (data : PyData) (units : Option Dimensionality)
    (dtype : Option String) (copy : Bool) : Except PErr NeoObj :=
  match
    (match units with
     | none =>
       match data.units with
       | some d => Except.ok (d, data.values)
       | none => Except.error PErr.valueErrorNoUnits
     | some dim =>
       match data.units with
       | some ddim =>
         if ddim ≠ dim then
           if ¬copy then Except.error PErr.valueErrorViewRescale
           else
             match rescaleQuantity data.values ddim dim with
             | .ok vals => Except.ok (dim, vals)
             | .error e => Except.error e
         else Except.ok (dim, data.values)
       | none => Except.ok (dim, data.values)) with
  | .error e => .error e
  | .ok (dim, vals) =>
    match
      (match dtype with
       | none => Except.ok (data.dtype.getD "float64")
       | some dt =>
         match data.dtype with
         | some ddt =>
           if ddt ≠ dt then
             if ¬copy then Except.error PErr.valueErrorViewDtype
             else Except.ok dt
           else Except.ok dt
         | none => Except.ok dt) with
    | .error e => .error e
    | .ok dt =>
      -- lines 203-206: the failed check creates a ValueError that is never
      -- raised; the condition's value is discarded
      let _unitCheckFailed := ¬ dimIsTimePow1 dim
      .ok ⟨vals, dim, dt⟩

/-- `_check_time_in_range` (`neoarray.py` lines 531-554) on magnitudes already
aligned to common units: empty input passes; otherwise the minimum must not be
below `tStart` and the maximum must not be above `tStop`. -/
def checkTimeInRange (values : List ℚ) (tStart tStop : ℚ) : Except PErr Unit :=
  match values with
  | [] => .ok ()
  | v :: vs =>
    if vs.foldl min v < tStart then .error PErr.firstSpikeBeforeStart
    else if tStop < vs.foldl max v then .error PErr.lastSpikeAfterStop
    else .ok ()

/-- The object produced by `Event.__new__`: a `NeoObj` plus `labels`. -/
structure EventObj where
  values : List ℚ
  dim : Dimensionality
  dtype : String
  labels : List String
  deriving DecidableEq, Repr

/-- `Event.__new__` (`event.py` lines 78-97): delegates to `NeoArray.__new__`,
then fills `labels`, defaulting to one empty string per element of `times`. -/
def Event.new (times : PyData) (labels : Option (List String))
    (units : Option Dimensionality) (dtype : Option String) (copy : Bool) :
    Except PErr EventObj :=
  match NeoArray.new times units dtype copy with
  | .error e => .error e
  | .ok obj =>
    let ls := match labels with
      | none => List.replicate times.values.length ""
      | some ls => ls
    .ok ⟨obj.values, obj.dim, obj.dtype, ls⟩

/-- The object produced by `Epoch.__new__`: an `EventObj` plus `durations`
(magnitudes in the object's own units). -/
structure EpochObj where
  values : List ℚ
  dim : Dimensionality
  dtype : String
  labels : List String
  durations : List ℚ
  deriving DecidableEq, Repr

/-- `Epoch.__new__` (`epoch.py` lines 80-103): delegates to `Event.__new__`,
then fills `durations`: zero-filled in the object's units when omitted,
interpreted in the object's units when unitless, rescaled to them otherwise. -/
def Epoch.new (times : PyData) (labels : Option (List String))
    (durations : Option PyData) (units : Option Dimensionality)
    (dtype : Option String) (copy : Bool) : Except PErr EpochObj :=
  match Event.new times labels units dtype copy with
  | .error e => .error e
  | .ok obj =>
    match durations with
    | none =>
      .ok ⟨obj.values, obj.dim, obj.dtype, obj.labels,
           List.replicate obj.values.length 0⟩
    | some d =>
      match d.units with
      | none => .ok ⟨obj.values, obj.dim, obj.dtype, obj.labels, d.values⟩
      | some du =>
        match rescaleQuantity d.values du obj.dim with
        | .error e => .error e
        | .ok ds => .ok ⟨obj.values, obj.dim, obj.dtype, obj.labels, ds⟩

/-- The object produced by `SpikeTrain.__new__`: spike-time magnitudes,
resolved dimensionality and dtype, the `t_start`/`t_stop` bounds (magnitudes in
the train's units, after the coercion of `spiketrain.py` lines 164-177), and
the optional per-spike waveform snippets (one 2-D channel × sample block per
spike, sliced along the leading axis). -/
structure STObj where
  values : List ℚ
  dim : Dimensionality
  dtype : String
  tStart : ℚ
  tStop : ℚ
  waveforms : Option (List (List (List ℚ)))
  deriving DecidableEq, Repr

/-- `SpikeTrain.__new__` (`spiketrain.py` lines 134-187): delegates to
`NeoArray.__new__`; then evaluates the guard of line 150,
`dtype is not None and hasattr(times.dtype) and times.dtype != dtype` — when
`dtype` is not None this expression itself raises, because `times.dtype` raises
`AttributeError` when `times` has no dtype and otherwise `hasattr` is called
with a single argument, a `TypeError`; then coerces `t_start`/`t_stop` to the
train's units and runs `_check_time_in_range` on the spike times. -/
def SpikeTrain.new (times : PyData) (tStop : ℚ) (units : Option Dimensionality)
    (dtype : Option String) (copy : Bool) (tStart : ℚ)
    (waveforms : Option (List (List (List ℚ)))) : Except PErr STObj :=
  match NeoArray.new times units dtype copy with
  | .error e => .error e
  | .ok obj =>
    match dtype with
    | some _ =>
      .error (if times.dtype.isSome then PErr.typeError else PErr.attributeError)
    | none =>
      match checkTimeInRange obj.values tStart tStop with
      | .error e => .error e
      | .ok () => .ok ⟨obj.values, obj.dim, obj.dtype, tStart, tStop, waveforms⟩

/-- `SpikeTrain.__setitem__` (`spiketrain.py` lines 223-231): a unitless value
is wrapped as a Quantity in the train's units; `_check_time_in_range` then
compares the value against `t_start`/`t_stop` (the quantity comparison rescales
a value carrying different but compatible units); on success the element is
stored. -/
def SpikeTrain.setitem (st : STObj) (i : ℕ) (v : PyScalar) :
    Except PErr STObj :=
  let vdim := match v.units with
    | none => st.dim      -- pq.Quantity(value, units=self.units)
    | some d => d
  match rescaleScalar v.mag vdim st.dim with
  | .error e => .error e
  | .ok m =>
    match checkTimeInRange [m] st.tStart st.tStop with
    | .error e => .error e
    | .ok () => .ok { st with values := st.values.set i m }

/-- Select the elements of `l` whose corresponding mask entry is true
(numpy boolean-mask indexing along the leading axis). -/
def maskSelect {α : Type} (l : List α) (mask : List Bool) : List α :=
  ((l.zip mask).filter (fun p => p.2)).map (fun p => p.1)

/-- `self >= _t_start` with `_t_start = -inf` when the bound is omitted. -/
def lowerOk (a : Option ℚ) (t : ℚ) : Bool :=
  match a with
  | none => true
  | some x => x ≤ t

/-- `self <= _t_stop` with `_t_stop = inf` when the bound is omitted. -/
def upperOk (b : Option ℚ) (t : ℚ) : Bool :=
  match b with
  | none => true
  | some y => t ≤ y

/-- The boolean index array `(self >= _t_start) & (self <= _t_stop)` of
`SpikeTrain.time_slice`. -/
def STObj.sliceMask (st : STObj) (a b : Option ℚ) : List Bool :=
  st.values.map (fun t => lowerOk a t && upperOk b t)

/-- `SpikeTrain.time_slice` (`spiketrain.py` lines 243-265): selects the spikes
inside the requested window (`None` meaning unbounded, via ±inf sentinels),
tightens `t_start` to `max(_t_start, self.t_start)` and `t_stop` to
`min(_t_stop, self.t_stop)` (with `max(-inf, x) = x` and `min(inf, x) = x` for
omitted bounds), and slices `waveforms` by the same boolean index array when it
is present.  (`self[indices]` already slices `waveforms` via `_slice_attrs`;
lines 262-263 re-slice it from the original with the same mask, giving the same
result, modelled once here.) -/
def STObj.timeSlice (st : STObj) (a b : Option ℚ) : STObj :=
  let mask := st.sliceMask a b
  { values := maskSelect st.values mask
    dim := st.dim
    dtype := st.dtype
    tStart := match a with
      | none => st.tStart
      | some x => max x st.tStart
    tStop := match b with
      | none => st.tStop
      | some y => min y st.tStop
    waveforms := match st.waveforms with
      | none => none
      | some wf => some (maskSelect wf mask) }

/-- The object produced by `AnalogSignal.__new__`: sample magnitudes in the
signal's units, the dimensionality, `t_start` and `sampling_rate` (magnitudes
of time/frequency quantities in fixed time/frequency units). -/
structure ASObj where
  values : List ℚ
  dim : Dimensionality
  tStart : ℚ
  samplingRate : ℚ
  deriving DecidableEq, Repr

/-- `_get_sampling_rate` (`neoarray.py` lines 496-515): derive the rate from
the period, or check the two are exact reciprocals when both are given. -/
def getSamplingRate (samplingRate samplingPeriod : Option ℚ) : Except PErr ℚ :=
  match samplingPeriod with
  | none =>
    match samplingRate with
    | none => .error PErr.valueErrorNoRate
    | some r => .ok r
  | some p =>
    match samplingRate with
    | none => .ok (1 / p)
    | some r => if p ≠ 1 / r then .error PErr.valueErrorRateMismatch else .ok r

/-- `AnalogSignal.__new__` (`analogsignal.py` lines 131-164): resolves units
(from the signal when the keyword is omitted, rescaling the signal otherwise),
rejects a `None` `t_start`, and derives the sampling rate. -/
def AnalogSignal.new (signal : PyData) (units : Option Dimensionality)
    (tStart : Option ℚ) (samplingRate samplingPeriod : Option ℚ) :
    Except PErr ASObj :=
  match
    (match units with
     | none =>
       match signal.units with
       | some d => Except.ok (d, signal.values)
       | none => Except.error PErr.valueErrorNoUnits
     | some dim =>
       match signal.units with
       | some ddim =>
         if ddim ≠ dim then
           match rescaleQuantity signal.values ddim dim with
           | .ok vals => Except.ok (dim, vals)
           | .error e => Except.error e
         else Except.ok (dim, signal.values)
       | none => Except.ok (dim, signal.values)) with
  | .error e => .error e
  | .ok (dim, vals) =>
    match tStart with
    | none => .error PErr.valueErrorTStartNone
    | some t0 =>
      match getSamplingRate samplingRate samplingPeriod with
      | .error e => .error e
      | .ok rate => .ok ⟨vals, dim, t0, rate⟩

/-- `AnalogSignal.sampling_period` (`analogsignal.py` line 245):
`1. / self.sampling_rate`. -/
def ASObj.samplingPeriod (s : ASObj) : ℚ := 1 / s.samplingRate

/-- The `sampling_period` setter (`analogsignal.py` lines 247-254): stores the
reciprocal into `sampling_rate`. -/
def ASObj.setSamplingPeriod (s : ASObj) (p : ℚ) : ASObj :=
  { s with samplingRate := 1 / p }

/-- `AnalogSignal.duration` (`analogsignal.py` line 275):
`self.shape[0] / self.sampling_rate`. -/
def ASObj.duration (s : ASObj) : ℚ := (s.values.length : ℚ) / s.samplingRate

/-- `AnalogSignal.t_stop` (`analogsignal.py` line 283):
`self.t_start + self.duration`. -/
def ASObj.tStop (s : ASObj) : ℚ := s.tStart + s.duration

/-- `AnalogSignal.times` (`analogsignal.py` line 291):
`self.t_start + np.arange(self.shape[0]) / self.sampling_rate`, recomputed on
every access. -/
def ASObj.timesList (s : ASObj) : List ℚ :=
  (List.range s.values.length).map (fun (i : ℕ) => s.tStart + (i : ℚ) / s.samplingRate)

/-- Python extended-slice index selection `l[start:stop:step]` for
non-negative indices and positive step: the elements at indices
`start, start+step, …` below `stop` (clamped to the length). -/
def pySlice {α : Type} (l : List α) (start stop : Option ℕ) (step : ℕ) :
    List α :=
  let st := start.getD 0
  let sp := stop.getD l.length
  ((List.range l.length).filter
      (fun i => st ≤ i && i < sp && (i - st) % step == 0)).filterMap l.get?

/-- `AnalogSignal.__getitem__` on a slice (`analogsignal.py` lines 199-216):
the base class slices the array and `__array_finalize__` copies `t_start` and
`sampling_rate` over; then a truthy (nonzero) slice start advances `t_start` by
`slice_start * self.sampling_period` (the original period, read from `self`),
and a truthy slice step multiplies `obj.sampling_period` by the step through
the period setter. -/
def ASObj.getitemSlice (s : ASObj) (start stop step : Option ℕ) : ASObj :=
  let obj : ASObj := { s with values := pySlice s.values start stop (step.getD 1) }
  let obj := match start with
    | none => obj
    | some a =>
      if a ≠ 0 then { obj with tStart := s.tStart + (a : ℚ) * s.samplingPeriod }
      else obj
  match step with
  | none => obj
  | some c =>
    if c ≠ 0 then obj.setSamplingPeriod ((c : ℚ) * obj.samplingPeriod)
    else obj

/-- `NeoArray._check_consistency` (`neoarray.py` lines 283-289): when `other`
is an instance of the same class, raise `ValueError` at the first declared
consistency attribute whose values differ; in every case the function body
returns Python `None` (modelled as `Unit`). -/
def NeoArray.checkConsistency (sameClass : Bool) (selfAttrs otherAttrs : List ℚ) :
    Except PErr Unit :=
  if sameClass then
    if (selfAttrs.zip otherAttrs).all (fun p => p.1 = p.2) then .ok ()
    else .error PErr.valueErrorInconsistent
  else .ok ()

/-- Python truthiness of the `None` returned by `_check_consistency`. -/
def pyTruthyNone (_ : Unit) : Bool := false

/-- `NeoArray.__eq__` (`neoarray.py` lines 416-420):
`if not self._check_consistency(other): return False` — `_check_consistency`
raises on a mismatched consistency attribute, and otherwise returns `None`,
which is falsy, so the guard always takes the `return False` branch and the
element-wise `super().__eq__` on the line below is never reached. -/
def NeoArray.eqOp (sameClass : Bool) (selfAttrs otherAttrs : List ℚ)
    (selfData otherData : List ℚ) : Except PErr Bool :=
  match NeoArray.checkConsistency sameClass selfAttrs otherAttrs with
  | .error e => .error e
  | .ok r =>
    if ¬ pyTruthyNone r then .ok false
    else .ok (decide (selfData = otherData))

/-- `NeoArray._apply_operator` (`neoarray.py` lines 303-312) for a plain
numeric operand: `_check_consistency` does nothing (the operand is not an
instance of the class), the operation is delegated element-wise to the
unit-aware array type, and the metadata is copied onto the result. -/
def NeoArray.applyOperatorScalar (vals : List ℚ) (y : ℚ) (op : ℚ → ℚ → ℚ) :
    List ℚ :=
  vals.map (fun v => op v y)

/-- `NeoArray.__mul__` (`neoarray.py` lines 434-436) with a numeric operand. -/
def NeoArray.mulOp (vals : List ℚ) (y : ℚ) : List ℚ :=
  NeoArray.applyOperatorScalar vals y (· * ·)

/-- `NeoArray.__sub__` (`neoarray.py` lines 430-432) with a numeric operand. -/
def NeoArray.subOp (vals : List ℚ) (y : ℚ) : List ℚ :=
  NeoArray.applyOperatorScalar vals y (· - ·)

/-- `NeoArray.__rmul__` (`neoarray.py` line 447): the source reads
`__rmul__ = __sub__`, so reflected multiplication `y * x` evaluates
`x.__sub__(y)`. -/
def NeoArray.rmulOp (vals : List ℚ) (y : ℚ) : List ℚ :=
  NeoArray.subOp vals y

/-- Per-class facts that `NeoArray.rescale` depends on: whether instances of
the class carry a `sampling_rate` attribute, and the names of the constructor
parameters that have no default value. -/
structure RescaleClassInfo where
  hasSamplingRate : Bool
  requiredCtorParams : List String
  deriving DecidableEq, Repr

/-- `AnalogSignal`: `sampling_rate` is set in `__new__`; `signal` is the only
parameter of `AnalogSignal.__new__` without a default. -/
def analogSignalClassInfo : RescaleClassInfo := ⟨true, ["signal"]⟩

/-- `Event`: nothing sets a `sampling_rate` attribute; `times` is the only
parameter of `Event.__new__` without a default. -/
def eventClassInfo : RescaleClassInfo := ⟨false, ["times"]⟩

/-- `Epoch`: nothing sets a `sampling_rate` attribute; every parameter of
`Epoch.__new__` has a default. -/
def epochClassInfo : RescaleClassInfo := ⟨false, []⟩

/-- `SpikeTrain`: `sampling_rate` is set in `__new__`; `times` and `t_stop`
are the parameters of `SpikeTrain.__new__` without defaults. -/
def spikeTrainClassInfo : RescaleClassInfo := ⟨true, ["times", "t_stop"]⟩

/-- The keywords `NeoArray.rescale` supplies in
`self.__class__(data=data, units=to_u, sampling_rate=self.sampling_rate)`. -/
def rescaleCtorKeywords : List String := ["data", "units", "sampling_rate"]

/-- `NeoArray.rescale` (`neoarray.py` lines 339-359): computes the converted
magnitudes (identity copy on an identical dimensionality, conversion factor on
a compatible one, `ValueError` on unrelated ones), then evaluates the call
`self.__class__(data=data, units=to_u, sampling_rate=self.sampling_rate)`.
Argument evaluation reads `self.sampling_rate`, an `AttributeError` for classes
whose instances have no such attribute (Event, Epoch).  Binding the keywords
then leaves any required constructor parameter not named `data`/`units`/
`sampling_rate` unfilled — a `TypeError` (`signal` for AnalogSignal, `times`
and `t_stop` for SpikeTrain; the stray keywords land in `**annotations`).
For Epoch every parameter defaults, so binding succeeds with `times=None`, and
`Event.__new__` then evaluates `len(times)` on `None` — a `TypeError` as well.
No concrete class reaches the construction of the rescaled copy. -/
def NeoArray.rescale (info : RescaleClassInfo) (selfDim : Dimensionality)
    (vals : List ℚ) (toDims : Dimensionality) : Except PErr (List ℚ × Dimensionality) :=
  match
    (if selfDim = toDims then Except.ok vals
     else if compatibleDim selfDim toDims then
       Except.ok (vals.map (· * (dimFactor selfDim / dimFactor toDims)))
     else Except.error PErr.valueErrorUnconvertible) with
  | .error e => .error e
  | .ok _data =>
    if ¬ info.hasSamplingRate then .error PErr.attributeError
    else if info.requiredCtorParams.any (fun p => ¬ rescaleCtorKeywords.contains p) then
      .error PErr.typeError
    else
      -- only Epoch binds successfully, and then fails inside Event.__new__
      -- at `len(times)` with times=None
      .error PErr.typeError

/-- The flat ordered argument tuple `Event._new_wrapper_args` exposes
(`event.py` lines 113-121): `np.array(self)` (magnitudes, units stripped,
dtype kept), `labels`, `units`, `dtype`, `copy=True`. -/
structure EventArgs where
  times : List ℚ
  labels : List String
  units : Dimensionality
  dtype : String
  copy : Bool
  deriving DecidableEq, Repr

def Event.newWrapperArgs (e : EventObj) : EventArgs :=
  ⟨e.values, e.labels, e.dim, e.dtype, true⟩

/-- `_new_event` (`event.py` lines 21-32) applied to the serialization tuple:
calls the `Event` constructor with the tuple's entries. -/
def newEventFromArgs (a : EventArgs) : Except PErr EventObj :=
  Event.new ⟨a.times, none, some a.dtype⟩ (some a.labels) (some a.units)
    (some a.dtype) a.copy

/-- The flat ordered argument tuple `Epoch._new_wrapper_args` exposes
(`epoch.py` lines 120-128): `np.array(self)`, `labels`, `durations` (a
quantity in the object's own units), `units`, `dtype`, `copy=True`. -/
structure EpochArgs where
  times : List ℚ
  labels : List String
  durations : List ℚ
  units : Dimensionality
  dtype : String
  copy : Bool
  deriving DecidableEq, Repr

def Epoch.newWrapperArgs (e : EpochObj) : EpochArgs :=
  ⟨e.values, e.labels, e.durations, e.dim, e.dtype, true⟩

/-- `_new_epoch` (`epoch.py` lines 21-32) applied to the serialization tuple. -/
def newEpochFromArgs (a : EpochArgs) : Except PErr EpochObj :=
  Epoch.new ⟨a.times, none, some a.dtype⟩ (some a.labels)
    (some ⟨a.durations, some a.units, none⟩) (some a.units) (some a.dtype) a.copy

/-- `AnalogSignal.__reduce__`: `AnalogSignal` overrides neither `_new_wrapper`
nor `_new_wrapper_args`, so `__reduce__` reads the inherited
`NeoArray._new_wrapper_args` property (`neoarray.py` lines 249-255), whose body
raises `NotImplementedError`. -/
def AnalogSignal.reduceOp (_s : ASObj) : Except PErr (List ℚ × Dimensionality) :=
  .error PErr.notImplementedError

/-- `_new_spiketrain` (`spiketrain.py` lines 17-30) applied to
`SpikeTrain._new_wrapper_args` (lines 206-216): the tuple passes
`dtype=self.dtype`, the concrete dtype of the pickled array — never `None` —
so reconstruction calls `SpikeTrain.__new__` with a non-None dtype. -/
def reconstructSpikeTrain (st : STObj) : Except PErr STObj :=
  SpikeTrain.new ⟨st.values, none, some st.dtype⟩ st.tStop (some st.dim)
    (some st.dtype) true st.tStart st.waveforms

theorem le_foldl_min_iff (vs : List ℚ) (v a : ℚ) :
    a ≤ vs.foldl min v ↔ a ≤ v ∧ ∀ t ∈ vs, a ≤ t := by
  induction vs generalizing v with
  | nil => simp
  | cons x xs ih =>
    simp only [List.foldl_cons, ih, le_min_iff, List.mem_cons]
    constructor
    · rintro ⟨⟨h1, h2⟩, h3⟩
      exact ⟨h1, fun t ht => ht.elim (fun h => h ▸ h2) (h3 t)⟩
    · rintro ⟨h1, h2⟩
      exact ⟨⟨h1, h2 x (Or.inl rfl)⟩, fun t ht => h2 t (Or.inr ht)⟩

theorem foldl_max_le_iff (vs : List ℚ) (v b : ℚ) :
    vs.foldl max v ≤ b ↔ v ≤ b ∧ ∀ t ∈ vs, t ≤ b := by
  induction vs generalizing v with
  | nil => simp
  | cons x xs ih =>
    simp only [List.foldl_cons, ih, max_le_iff, List.mem_cons]
    constructor
    · rintro ⟨⟨h1, h2⟩, h3⟩
      exact ⟨h1, fun t ht => ht.elim (fun h => h ▸ h2) (h3 t)⟩
    · rintro ⟨h1, h2⟩
      exact ⟨⟨h1, h2 x (Or.inl rfl)⟩, fun t ht => h2 t (Or.inr ht)⟩

theorem checkTimeInRange_ok_iff (values : List ℚ) (a b : ℚ) :
    checkTimeInRange values a b = Except.ok () ↔ ∀ t ∈ values, a ≤ t ∧ t ≤ b := by
  cases values with
  | nil => simp [checkTimeInRange]
  | cons v vs =>
    simp only [checkTimeInRange]
    split_ifs with h1 h2
    · simp only [reduceCtorEq, false_iff, not_forall]
      rw [← not_le, le_foldl_min_iff] at h1
      push_neg at h1
      by_cases hv : a ≤ v
      · obtain ⟨t, ht, hta⟩ := h1 hv
        exact ⟨t, List.mem_cons_of_mem v ht, fun hc => absurd hc.1 (not_le.mpr hta)⟩
      · exact ⟨v, List.mem_cons_self v vs, fun hc => absurd hc.1 hv⟩
    · simp only [reduceCtorEq, false_iff, not_forall]
      rw [← not_le, foldl_max_le_iff] at h2
      push_neg at h2
      by_cases hv : v ≤ b
      · obtain ⟨t, ht, htb⟩ := h2 hv
        exact ⟨t, List.mem_cons_of_mem v ht, fun hc => absurd hc.2 (not_le.mpr htb)⟩
      · exact ⟨v, List.mem_cons_self v vs, fun hc => absurd hc.2 hv⟩
    · simp only [true_iff]
      rw [not_lt, le_foldl_min_iff] at h1
      rw [not_lt, foldl_max_le_iff] at h2
      intro t ht
      rcases List.mem_cons.mp ht with h | h
      · exact ⟨h ▸ h1.1, h ▸ h2.1⟩
      · exact ⟨h1.2 t h, h2.2 t h⟩

theorem checkTimeInRange_error_isRange (values : List ℚ) (a b : ℚ) (e : PErr)
    (h : checkTimeInRange values a b = Except.error e) : e.isRangeError = true := by
  cases values with
  | nil => simp [checkTimeInRange] at h
  | cons v vs =>
    simp only [checkTimeInRange] at h
    split_ifs at h <;> cases h <;> rfl

theorem maskSelect_nil_left {α : Type} (m : List Bool) :
    maskSelect ([] : List α) m = [] := rfl

theorem maskSelect_nil_right {α : Type} (l : List α) :
    maskSelect l [] = [] := by
  cases l <;> rfl

theorem maskSelect_cons {α : Type} (x : α) (l : List α) (b : Bool)
    (m : List Bool) :
    maskSelect (x :: l) (b :: m) =
      if b then x :: maskSelect l m else maskSelect l m := by
  simp only [maskSelect, List.zip_cons_cons, List.filter_cons]
  cases b <;> simp

theorem maskSelect_map_self {α : Type} (l : List α) (f : α → Bool) :
    maskSelect l (l.map f) = l.filter f := by
  induction l with
  | nil => rfl
  | cons x xs ih =>
    simp only [List.map_cons, maskSelect_cons, List.filter_cons, ih]

theorem maskSelect_zip {α β : Type} (xs : List α) (ys : List β) (m : List Bool)
    (h : xs.length = ys.length) :
    maskSelect (xs.zip ys) m = (maskSelect xs m).zip (maskSelect ys m) := by
  induction xs generalizing ys m with
  | nil =>
    cases ys with
    | nil => simp [maskSelect_nil_left]
    | cons y ys => simp at h
  | cons x xs ih =>
    cases ys with
    | nil => simp at h
    | cons y ys =>
      cases m with
      | nil => simp [maskSelect_nil_right]
      | cons b m =>
        simp only [List.zip_cons_cons, maskSelect_cons]
        cases b with
        | false => exact ih ys m (by simpa using h)
        | true =>
          simp only [if_true, List.zip_cons_cons]
          rw [ih ys m (by simpa using h)]

theorem maskSelect_length_eq {α β : Type} (xs : List α) (ys : List β)
    (m : List Bool) (h : xs.length = ys.length) :
    (maskSelect xs m).length = (maskSelect ys m).length := by
  induction xs generalizing ys m with
  | nil =>
    cases ys with
    | nil => rfl
    | cons y ys => simp at h
  | cons x xs ih =>
    cases ys with
    | nil => simp at h
    | cons y ys =>
      cases m with
      | nil => simp [maskSelect_nil_right]
      | cons b m =>
        simp only [maskSelect_cons]
        cases b with
        | false => exact ih ys m (by simpa using h)
        | true => simpa using ih ys m (by simpa using h)

/-- C1: a SpikeTrain construction (with the default `dtype=None`, on data whose
units resolve) fails with a range error exactly when some spike time lies
outside `[t_start, t_stop]`, and succeeds exactly when all lie inside; and an
element assignment `train[i] = value` (value unitless, hence coerced to the
train's units, or already in them) fails with a range error exactly when the
value lies outside `[t_start, t_stop]`. -/
theorem C1_spiketrain_range_validation
    (times : PyData) (tStop0 : ℚ) (units : Option Dimensionality) (copy : Bool)
    (tStart0 : ℚ) (wf : Option (List (List (List ℚ)))) (obj : NeoObj)
    (hobj : NeoArray.new times units none copy = Except.ok obj)
    (st : STObj) (i : ℕ) (v : PyScalar)
    (hv : v.units = none ∨ v.units = some st.dim) :
    ((∃ r, SpikeTrain.new times tStop0 units none copy tStart0 wf = Except.ok r)
        ↔ ∀ t ∈ obj.values, tStart0 ≤ t ∧ t ≤ tStop0)
    ∧ (∀ e, SpikeTrain.new times tStop0 units none copy tStart0 wf = Except.error e
        → e.isRangeError = true)
    ∧ ((∃ st', SpikeTrain.setitem st i v = Except.ok st')
        ↔ st.tStart ≤ v.mag ∧ v.mag ≤ st.tStop)
    ∧ (∀ e, SpikeTrain.setitem st i v = Except.error e → e.isRangeError = true) := by
  have hnew : SpikeTrain.new times tStop0 units none copy tStart0 wf =
      (match checkTimeInRange obj.values tStart0 tStop0 with
       | .error e => Except.error e
       | .ok () => Except.ok ⟨obj.values, obj.dim, obj.dtype, tStart0, tStop0, wf⟩) := by
    unfold SpikeTrain.new
    rw [hobj]
  have hset : SpikeTrain.setitem st i v =
      (match checkTimeInRange [v.mag] st.tStart st.tStop with
       | .error e => Except.error e
       | .ok () => Except.ok { st with values := st.values.set i v.mag }) := by
    rcases hv with hv | hv <;>
      · unfold SpikeTrain.setitem
        rw [hv]
        simp [rescaleScalar]
  have hA : (∃ r, SpikeTrain.new times tStop0 units none copy tStart0 wf = Except.ok r)
      ↔ ∀ t ∈ obj.values, tStart0 ≤ t ∧ t ≤ tStop0 := by
    rw [hnew]
    rcases h : checkTimeInRange obj.values tStart0 tStop0 with e | u
    · simp only [h, reduceCtorEq, exists_false, false_iff]
      intro hall
      have hok := (checkTimeInRange_ok_iff obj.values tStart0 tStop0).mpr hall
      rw [h] at hok
      cases hok
    · cases u
      simp only [h]
      constructor
      · intro _
        exact (checkTimeInRange_ok_iff obj.values tStart0 tStop0).mp h
      · intro _
        exact ⟨_, rfl⟩
  have hB : ∀ e, SpikeTrain.new times tStop0 units none copy tStart0 wf = Except.error e
      → e.isRangeError = true := by
    intro e he
    rw [hnew] at he
    rcases h : checkTimeInRange obj.values tStart0 tStop0 with e' | u
    · simp only [h, Except.error.injEq] at he
      exact he ▸ checkTimeInRange_error_isRange _ _ _ _ h
    · cases u
      simp only [h, reduceCtorEq] at he
  have hC : (∃ st', SpikeTrain.setitem st i v = Except.ok st')
      ↔ st.tStart ≤ v.mag ∧ v.mag ≤ st.tStop := by
    rw [hset]
    rcases h : checkTimeInRange [v.mag] st.tStart st.tStop with e | u
    · simp only [h, reduceCtorEq, exists_false, false_iff]
      intro hc
      have hok := (checkTimeInRange_ok_iff [v.mag] st.tStart st.tStop).mpr (by simpa using hc)
      rw [h] at hok
      cases hok
    · cases u
      simp only [h]
      constructor
      · intro _
        simpa using (checkTimeInRange_ok_iff [v.mag] st.tStart st.tStop).mp h
      · intro _
        exact ⟨_, rfl⟩
  have hD : ∀ e, SpikeTrain.setitem st i v = Except.error e → e.isRangeError = true := by
    intro e he
    rw [hset] at he
    rcases h : checkTimeInRange [v.mag] st.tStart st.tStop with e' | u
    · simp only [h, Except.error.injEq] at he
      exact he ▸ checkTimeInRange_error_isRange _ _ _ _ h
    · cases u
      simp only [h, reduceCtorEq] at he
  exact ⟨hA, hB, hC, hD⟩

/-- C1 witness: the train of the module docstring, `SpikeTrain([3,4,5]*s,
t_stop=10)`, constructs successfully, and assigning the in-range unitless value
4 to an element succeeds. -/
theorem C1_witness :
    (∃ r, SpikeTrain.new ⟨[3, 4, 5], none, none⟩ 10 (some dimS) none true 0 none
        = Except.ok r)
    ∧ (∃ st', SpikeTrain.setitem ⟨[3, 4, 5], dimS, "float64", 0, 10, none⟩ 0 ⟨4, none⟩
        = Except.ok st') := by
  have h := C1_spiketrain_range_validation ⟨[3, 4, 5], none, none⟩ 10 (some dimS) true 0
      none ⟨[3, 4, 5], dimS, "float64"⟩ rfl ⟨[3, 4, 5], dimS, "float64", 0, 10, none⟩ 0
      ⟨4, none⟩ (Or.inl rfl)
  exact ⟨h.1.mpr (by decide), h.2.2.1.mpr (by decide)⟩

/-- C2: the dimensionality check of `NeoArray.__new__` builds its `ValueError`
without `raise` (`neoarray.py` lines 203-206), so constructing an Event or a
SpikeTrain through the generic base constructor with millivolt units — whose
dimensionality is not time to the power 1 — succeeds instead of failing. -/
theorem C2_unit_check_never_raised :
    Event.new ⟨[1, 2, 3], none, none⟩ none (some dimMv) none true =
      Except.ok ⟨[1, 2, 3], dimMv, "float64", ["", "", ""]⟩
    ∧ SpikeTrain.new ⟨[3, 4, 5], none, none⟩ 10 (some dimMv) none true 0 none =
      Except.ok ⟨[3, 4, 5], dimMv, "float64", 0, 10, none⟩
    ∧ dimIsTimePow1 dimMv = false := by
  exact ⟨rfl, rfl, rfl⟩

/-- C3: slicing an AnalogSignal as `s[a:b:c]` with a nonzero (truthy) start `a`
and a nonzero step `c` slices the primary array and yields
`t_start + a * sampling_period` — computed with `self`'s original period, read
at `analogsignal.py` line 213 before the step adjustment of line 215 runs — as
the new `t_start`, and `c * sampling_period` (again the original period, stored
through the reciprocal `sampling_period` setter) as the new `sampling_period`.
-/
theorem C3_analogsignal_slice_metadata (s : ASObj) (a c : ℕ) (b : Option ℕ)
    (ha : a ≠ 0) (hc : c ≠ 0) :
    (s.getitemSlice (some a) b (some c)).values = pySlice s.values (some a) b c
    ∧ (s.getitemSlice (some a) b (some c)).tStart
        = s.tStart + (a : ℚ) * s.samplingPeriod
    ∧ ASObj.samplingPeriod (s.getitemSlice (some a) b (some c))
        = (c : ℚ) * s.samplingPeriod := by
  refine ⟨?_, ?_, ?_⟩
  · simp only [ASObj.getitemSlice, ASObj.setSamplingPeriod, ASObj.samplingPeriod,
      ne_eq, ha, hc, not_false_eq_true, if_true, Option.getD_some]
  · simp only [ASObj.getitemSlice, ASObj.setSamplingPeriod, ASObj.samplingPeriod,
      ne_eq, ha, hc, not_false_eq_true, if_true]
  · simp only [ASObj.getitemSlice, ASObj.setSamplingPeriod, ASObj.samplingPeriod,
      ne_eq, ha, hc, not_false_eq_true, if_true]
    exact one_div_one_div _

/-- C3 witness: for a five-sample signal at 2 Hz starting at 0, the slice
`[1::2]` keeps samples [2, 4], starts at the original period 1/2, and samples
with period 1 = 2 * (1/2). -/
theorem C3_witness :
    ((⟨[1, 2, 3, 4, 5], dimMv, 0, 2⟩ : ASObj).getitemSlice (some 1) none (some 2)).values
        = [2, 4]
    ∧ ((⟨[1, 2, 3, 4, 5], dimMv, 0, 2⟩ : ASObj).getitemSlice (some 1) none (some 2)).tStart
        = 1 / 2
    ∧ ASObj.samplingPeriod
        ((⟨[1, 2, 3, 4, 5], dimMv, 0, 2⟩ : ASObj).getitemSlice (some 1) none (some 2))
        = 1 := by
  have h := C3_analogsignal_slice_metadata ⟨[1, 2, 3, 4, 5], dimMv, 0, 2⟩ 1 2 none
      (by decide) (by decide)
  norm_num [ASObj.samplingPeriod] at h
  refine ⟨?_, h.2.1, ?_⟩
  · rw [h.1]
    rfl
  · unfold ASObj.samplingPeriod
    rw [h.2.2]
    norm_num

/-- C4: `NeoArray.__eq__` calls `_check_consistency`, which raises on a
mismatched consistency attribute instead of yielding "not equal", and which
returns the falsy `None` on a match, so the guard then returns `False` without
ever reaching the element-wise comparison — even on identical data. -/
theorem C4_eq_raises_and_never_compares :
    NeoArray.eqOp true [0] [1] [5, 6] [5, 6] = Except.error PErr.valueErrorInconsistent
    ∧ NeoArray.eqOp true [0] [0] [5, 6] [5, 6] = Except.ok false
    ∧ NeoArray.eqOp true [0] [0] [5, 6] [7, 8] = Except.ok false := by
  exact ⟨rfl, rfl, rfl⟩

/-- C5: the serialization round trip holds for Event and Epoch, but
`AnalogSignal.__reduce__` raises `NotImplementedError` (the class overrides
neither `_new_wrapper` nor `_new_wrapper_args`), and SpikeTrain reconstruction
always raises a `TypeError` (the tuple carries a concrete dtype, which trips
the ill-formed guard `hasattr(times.dtype)` in `SpikeTrain.__new__`). -/
theorem C5_serialization_roundtrip_status :
    (∀ e : EventObj, newEventFromArgs (Event.newWrapperArgs e) = Except.ok e)
    ∧ (∀ ep : EpochObj, newEpochFromArgs (Epoch.newWrapperArgs ep) = Except.ok ep)
    ∧ (∀ s : ASObj, AnalogSignal.reduceOp s = Except.error PErr.notImplementedError)
    ∧ (∀ st : STObj, reconstructSpikeTrain st = Except.error PErr.typeError) := by
  refine ⟨fun e => ?_, fun ep => ?_, fun s => rfl, fun st => ?_⟩
  · simp [newEventFromArgs, Event.newWrapperArgs, Event.new, NeoArray.new]
  · simp [newEpochFromArgs, Epoch.newWrapperArgs, Epoch.new, Event.new, NeoArray.new,
      rescaleQuantity]
  · simp [reconstructSpikeTrain, SpikeTrain.new, NeoArray.new]

/-- C6: `SpikeTrain.time_slice(a, b)` (either bound possibly `None`, meaning
unbounded): every retained time satisfies `a <= t <= b`; the result's
`t_start` is `max(a, original t_start)` and its `t_stop` is
`min(b, original t_stop)` (omitted bounds leave them unchanged); and when
`waveforms` is present it is sliced by the same boolean element selection, so
the retained time/waveform pairs are exactly the selected pairs of the
original. -/
theorem C6_timeslice_contract (st : STObj) (a b : Option ℚ) :
    (∀ t ∈ (st.timeSlice a b).values,
        (∀ x, a = some x → x ≤ t) ∧ ∀ y, b = some y → t ≤ y)
    ∧ ((st.timeSlice a b).tStart
        = match a with | none => st.tStart | some x => max x st.tStart)
    ∧ ((st.timeSlice a b).tStop
        = match b with | none => st.tStop | some y => min y st.tStop)
    ∧ ∀ wf, st.waveforms = some wf → wf.length = st.values.length →
        ∃ wf', (st.timeSlice a b).waveforms = some wf'
          ∧ wf'.length = (st.timeSlice a b).values.length
          ∧ (st.timeSlice a b).values.zip wf'
              = maskSelect (st.values.zip wf) (st.sliceMask a b) := by
  have hval : (st.timeSlice a b).values
      = st.values.filter (fun t => lowerOk a t && upperOk b t) := by
    show maskSelect st.values (st.sliceMask a b) = _
    rw [STObj.sliceMask, maskSelect_map_self]
  refine ⟨?_, rfl, rfl, ?_⟩
  · intro t ht
    rw [hval] at ht
    have hprop := List.of_mem_filter ht
    rw [Bool.and_eq_true] at hprop
    refine ⟨fun x hx => ?_, fun y hy => ?_⟩
    · rw [hx] at hprop
      simpa [lowerOk] using hprop.1
    · rw [hy] at hprop
      simpa [upperOk] using hprop.2
  · intro wf hwf hlen
    refine ⟨maskSelect wf (st.sliceMask a b), ?_, ?_, ?_⟩
    · show (match st.waveforms with
        | none => none
        | some wf => some (maskSelect wf (st.sliceMask a b))) = _
      rw [hwf]
    · exact maskSelect_length_eq wf st.values _ hlen
    · show (maskSelect st.values (st.sliceMask a b)).zip
          (maskSelect wf (st.sliceMask a b)) = _
      exact (maskSelect_zip st.values wf _ hlen.symm).symm

/-- C6 witness: slicing the train with spikes at 1, 3, 5 and one waveform per
spike to the window [2, 4] keeps the aligned (time, waveform) pair (3, [[30]]).
-/
theorem C6_witness :
    ∃ wf', ((⟨[1, 3, 5], dimS, "float64", 0, 10,
          some [[[10]], [[30]], [[50]]]⟩ : STObj).timeSlice (some 2) (some 4)).waveforms
        = some wf'
      ∧ wf'.length = ((⟨[1, 3, 5], dimS, "float64", 0, 10,
          some [[[10]], [[30]], [[50]]]⟩ : STObj).timeSlice (some 2) (some 4)).values.length
      ∧ ((⟨[1, 3, 5], dimS, "float64", 0, 10,
          some [[[10]], [[30]], [[50]]]⟩ : STObj).timeSlice (some 2) (some 4)).values.zip wf'
        = maskSelect (([1, 3, 5] : List ℚ).zip [[[10]], [[30]], [[50]]])
            ((⟨[1, 3, 5], dimS, "float64", 0, 10,
              some [[[10]], [[30]], [[50]]]⟩ : STObj).sliceMask (some 2) (some 4)) :=
  (C6_timeslice_contract ⟨[1, 3, 5], dimS, "float64", 0, 10,
      some [[[10]], [[30]], [[50]]]⟩ (some 2) (some 4)).2.2.2
    [[[10]], [[30]], [[50]]] rfl rfl

/-- C7: for every non-empty AnalogSignal with a nonzero sampling rate,
`times[0] == t_start`, `times[-1] == t_stop - sampling_period`, and
`len(times) == len(signal)`. -/
theorem C7_analogsignal_times (s : ASObj) (hne : s.values ≠ [])
    (hr : s.samplingRate ≠ 0) :
    s.timesList.head? = some s.tStart
    ∧ s.timesList.getLast? = some (s.tStop - s.samplingPeriod)
    ∧ s.timesList.length = s.values.length := by
  obtain ⟨m, hm⟩ : ∃ m, s.values.length = m + 1 := by
    cases hv : s.values with
    | nil => exact absurd hv hne
    | cons x xs => exact ⟨xs.length, by simp [hv]⟩
  refine ⟨?_, ?_, by unfold ASObj.timesList; rw [List.length_map, List.length_range]⟩
  · unfold ASObj.timesList
    rw [hm, List.range_succ_eq_map]
    simp
  · unfold ASObj.timesList ASObj.tStop ASObj.duration ASObj.samplingPeriod
    rw [hm, List.range_succ, List.map_append]
    simp only [List.map_cons, List.map_nil, List.getLast?_concat, Option.some.injEq]
    push_cast
    field_simp
    ring

/-- C7 witness: a three-sample signal at 2 Hz starting at 5 has times
[5, 11/2, 6]: the first is `t_start`, the last is `t_stop - sampling_period`
(13/2 - 1/2), and there are as many times as samples. -/
theorem C7_witness :
    (⟨[1, 2, 3], dimMv, 5, 2⟩ : ASObj).timesList.head? = some 5
    ∧ (⟨[1, 2, 3], dimMv, 5, 2⟩ : ASObj).timesList.getLast? = some 6
    ∧ (⟨[1, 2, 3], dimMv, 5, 2⟩ : ASObj).timesList.length = 3 := by
  have h := C7_analogsignal_times ⟨[1, 2, 3], dimMv, 5, 2⟩ (by decide) (by decide)
  refine ⟨h.1, ?_, h.2.2⟩
  have h2 := h.2.1
  norm_num [ASObj.tStop, ASObj.duration, ASObj.samplingPeriod] at h2
  exact h2

/-- C8: `NeoArray.rescale` cannot return for any of the four concrete classes:
reading `self.sampling_rate` raises `AttributeError` for Event and Epoch, and
the call `self.__class__(data=…, units=…, sampling_rate=…)` raises `TypeError`
for AnalogSignal and SpikeTrain, whose required constructor parameters
(`signal`, resp. `times`/`t_stop`) receive no value. -/
theorem C8_rescale_broken_for_all_classes :
    NeoArray.rescale eventClassInfo dimS [1, 2, 3] dimMs
        = Except.error PErr.attributeError
    ∧ NeoArray.rescale epochClassInfo dimS [1, 2, 3] dimS
        = Except.error PErr.attributeError
    ∧ NeoArray.rescale analogSignalClassInfo dimMv [1, 2, 3] dimMv
        = Except.error PErr.typeError
    ∧ NeoArray.rescale spikeTrainClassInfo dimS [3, 4, 5] dimMs
        = Except.error PErr.typeError := by
  refine ⟨?_, ?_, ?_, ?_⟩ <;>
    norm_num [NeoArray.rescale, compatibleDim, Dimensionality.simplifiedKey,
      dimS, dimMs, dimMv, uSecond, uMillisecond, uMillivolt, eventClassInfo,
      epochClassInfo, analogSignalClassInfo, spikeTrainClassInfo,
      rescaleCtorKeywords]

/-- C9: because `__rmul__ = __sub__`, reflected multiplication `2 * x` on data
[2, 3] computes the subtraction [0, 1], not the product [4, 6] that
`x.__mul__(2)` computes, so `y * x` differs from `x * y`. -/
theorem C9_rmul_is_subtraction :
    NeoArray.rmulOp [2, 3] 2 = [0, 1]
    ∧ NeoArray.mulOp [2, 3] 2 = [4, 6]
    ∧ NeoArray.rmulOp [2, 3] 2 ≠ NeoArray.mulOp [2, 3] 2 := by
  refine ⟨?_, ?_, ?_⟩ <;>
    norm_num [NeoArray.rmulOp, NeoArray.subOp, NeoArray.mulOp,
      NeoArray.applyOperatorScalar]

/-- C10: every SpikeTrain construction with an explicit non-None dtype raises:
either `NeoArray.__new__` already fails, or the guard
`dtype is not None and hasattr(times.dtype) and …` is reached and its
ill-formed `hasattr` call (or the `times.dtype` access) raises, before the
range check — regardless of the times and bounds supplied. -/
theorem C10_dtype_guard_always_raises (times : PyData) (tStop0 : ℚ)
    (units : Option Dimensionality) (d : String) (copy : Bool) (tStart0 : ℚ)
    (wf : Option (List (List (List ℚ)))) :
    ∃ e, SpikeTrain.new times tStop0 units (some d) copy tStart0 wf
        = Except.error e := by
  unfold SpikeTrain.new
  rcases h : NeoArray.new times units (some d) copy with e | obj
  · exact ⟨e, rfl⟩
  · exact ⟨if times.dtype.isSome then PErr.typeError else PErr.attributeError, rfl⟩
